import Mathlib

/-!
Verification of the MapleBond RAG backend core (`base/views.py`,
`utils/azure_openai_manager.py`) against its natural-language specification.

The code is shallowly embedded: Python strings become `String`/`List Char`,
BSON documents become association lists over a value type, and the three
external collaborators (embedding service, document store, completion
service) are passed in as explicit functions or result lists, with
injectable failures where a claim is about failure handling.
-/

/-- Python `str.isspace` restricted to the ASCII whitespace characters that
`str.split()` and `str.strip()` treat as separators: space, tab, newline,
carriage return, vertical tab, form feed. -/
def pyIsSpace (c : Char) : Bool :=
  c = ' ' || c = '\t' || c = '\n' || c = '\r' || c = '\x0b' || c = '\x0c'

/-- Word counter realising Python `len(s.split())`: the number of maximal
runs of non-whitespace characters. `inWord` records whether the previous
character belonged to a word. -/
def countWordsL : List Char → Bool → Nat
  | [], _ => 0
  | c :: cs, inWord =>
    if pyIsSpace c then countWordsL cs false
    else (if inWord then 0 else 1) + countWordsL cs true

/-- Python `len(s.split())`. -/
def pyWordCount (s : String) : Nat := countWordsL s.toList false

/-- Python `s.strip()` on a character list: drop whitespace from the front,
then drop whitespace from the back. -/
def pyStripL (l : List Char) : List Char :=
  List.rdropWhile pyIsSpace (List.dropWhile pyIsSpace l)

/-- Python `s.strip()`. -/
def pyStrip (s : String) : String := ⟨pyStripL s.toList⟩

/-- Lines 190-197 of `rag_with_vector_search`:
`max_tokens = 4096; prompt_tokens = len(formatted_prompt.split());`
`if prompt_tokens > max_tokens: formatted_prompt = formatted_prompt[:4096];`
`formatted_prompt = formatted_prompt.strip()`. -/
def truncStepL (l : List Char) : List Char :=
  pyStripL (if countWordsL l false > 4096 then l.take 4096 else l)

/-- The truncation-plus-strip step applied to the assembled system message. -/
def truncStep (s : String) : String := ⟨truncStepL s.toList⟩

/-- One lowercase hexadecimal digit. -/
def hexDigit (n : Nat) : Char :=
  if n < 10 then Char.ofNat (48 + n) else Char.ofNat (87 + n % 16)

/-- A `\uXXXX` escape as produced by `json.dumps` (`ensure_ascii=True`). -/
def uEsc (n : Nat) : String :=
  "\\u" ++ String.mk [hexDigit (n / 4096 % 16), hexDigit (n / 256 % 16),
    hexDigit (n / 16 % 16), hexDigit (n % 16)]

/-- `json.dumps` escaping of a single character inside a string literal. -/
def jsonEscChar (c : Char) : String :=
  if c = '"' then "\\\""
  else if c = '\\' then "\\\\"
  else if c = '\n' then "\\n"
  else if c = '\r' then "\\r"
  else if c = '\t' then "\\t"
  else if c = '\x08' then "\\b"
  else if c = '\x0c' then "\\f"
  else if c.toNat < 32 then uEsc c.toNat
  else if c.toNat < 127 then String.singleton c
  else if c.toNat ≤ 65535 then uEsc c.toNat
  else uEsc (55296 + (c.toNat - 65536) / 1024) ++ uEsc (56320 + (c.toNat - 65536) % 1024)

/-- `json.dumps` rendering of a string value. -/
def jsonQuote (s : String) : String :=
  "\"" ++ String.join (s.toList.map jsonEscChar) ++ "\""

/-- A BSON value stored in a document field. The orchestration logic only
reads text fields (`title`, `desc`, the backfill source field) and writes
embedding vectors (`contentVector`); embedding payloads are opaque to it and
are modelled as integer lists. -/
inductive Val where
  | str : String → Val
  | vec : List Int → Val
deriving DecidableEq

/-- `json.dumps(v, default=str)` without `indent`, as used by the backfill
to serialize the designated source field. -/
def dumpValCompact : Val → String
  | .str s => jsonQuote s
  | .vec l => "[" ++ String.intercalate ", " (l.map toString) ++ "]"

/-- `json.dumps(v, indent=4, default=str)` rendering of a value sitting at
depth 1 of the context block (with `indent=4`, list elements each get their
own line indented by 8 spaces). -/
def dumpValIndent1 : Val → String
  | .str s => jsonQuote s
  | .vec [] => "[]"
  | .vec l =>
    "[\n" ++ String.intercalate ",\n" (l.map fun x => "        " ++ toString x) ++ "\n    ]"

/-- `json.dumps({"title": tv, "desc": dv}, indent=4, default=str)`: key order
is insertion order, the key separator is a colon and a space, and each entry
sits on its own line indented by four spaces. -/
def pyJsonDumpTitleDesc (tv dv : Val) : String :=
  "\x7b\n    \"title\": " ++ dumpValIndent1 tv ++ ",\n    \"desc\": " ++
    dumpValIndent1 dv ++ "\n\x7d"

/-- First-match lookup of a key in a BSON document (document keys are unique
in MongoDB, so first-match agrees with map lookup). -/
def lookupKey (k : String) : List (String × Val) → Option Val
  | [] => none
  | (k', v') :: rest => if k' = k then some v' else lookupKey k rest

/-- `$set` of a single key: replace the value at the first occurrence of the
key, or append the binding when the key is absent. -/
def setKey (k : String) (v : Val) : List (String × Val) → List (String × Val)
  | [] => [(k, v)]
  | (k', v') :: rest => if k' = k then (k, v) :: rest else (k', v') :: setKey k v rest

/-- A stored document: the mandatory `_id` and the remaining fields. -/
structure Doc where
  id : Nat
  fields : List (String × Val)
deriving DecidableEq

/-- `doc.get(field, "")`. -/
def docGetD (d : Doc) (field : String) : Val :=
  (lookupKey field d.fields).getD (Val.str "")

/-- `pymongo.UpdateOne({"_id": _}, {"$set": {key: value}}, upsert=True)`,
specialised to the single-key `$set` shape the backfill issues. -/
structure UpdateOp where
  filterId : Nat
  setK : String
  setV : Val
  upsert : Bool
deriving DecidableEq

/-- The update queued for one cursor document in
`add_collection_content_vector_field`:
`UpdateOne({"_id": doc["_id"]},
  {"$set": {"contentVector": generate_embeddings(json.dumps(doc.get(field, ""), default=str))}},
  upsert=True)`, with the embedding service abstracted as `embed`. -/
def mkOp (field : String) (embed : String → List Int) (d : Doc) : UpdateOp :=
  ⟨d.id, "contentVector", Val.vec (embed (dumpValCompact (docGetD d field))), true⟩

/-- Exceptions that can escape the backfill loop body. -/
inductive PyExc where
  | bulkWriteError
  | otherError
deriving DecidableEq

/-- The log calls made by `add_collection_content_vector_field`. -/
inductive LogEvent where
  | bulkCompleted (count : Nat)
  | finalCompleted (count : Nat)
  | bulkWriteErrorLogged
  | unexpectedErrorLogged
deriving DecidableEq

/-- Failure injection for the backfill collaborators: `bulkFailAt = some i`
makes the `i`-th `bulk_write` call (0-based, counting the final partial
flush) raise `BulkWriteError`; `excAt = some j` makes the embedding call for
the `j`-th cursor document raise a generic exception. -/
structure BackfillOracle where
  bulkFailAt : Option Nat
  excAt : Option Nat
deriving DecidableEq

/-- The `for doc in cursor:` loop of `add_collection_content_vector_field`
together with the trailing partial flush (`batch_size = 50`). The arguments
mirror the Python locals `bulk_operations` (`pending`) and `count`, plus the
positions `didx` (cursor document index) and `widx` (bulk-write call index)
at which the oracle injects failures. Returns the successfully flushed
batches in order, the info-log calls, and the exception escaping the loop,
if any. -/
def backfillLoop (field : String) (embed : String → List Int) (o : BackfillOracle) :
    List Doc → List UpdateOp → Nat → Nat → Nat →
    List (List UpdateOp) × List LogEvent × Option PyExc
  | [], pending, count, _, widx =>
    if pending = [] then ([], [], none)
    else if o.bulkFailAt = some widx then ([], [], some .bulkWriteError)
    else ([pending], [.finalCompleted count], none)
  | d :: ds, pending, count, didx, widx =>
    if o.excAt = some didx then ([], [], some .otherError)
    else
      let ops := pending ++ [mkOp field embed d]
      if ops.length ≥ 50 then
        if o.bulkFailAt = some widx then ([], [], some .bulkWriteError)
        else
          let r := backfillLoop field embed o ds [] (count + 1) (didx + 1) (widx + 1)
          (ops :: r.1, .bulkCompleted (count + 1) :: r.2.1, r.2.2)
      else backfillLoop field embed o ds ops (count + 1) (didx + 1) widx

/-- The observable outcome of one backfill run. -/
structure BackfillResult where
  writes : List (List UpdateOp)
  logs : List LogEvent
  cursorClosed : Bool
deriving DecidableEq

/-- The `try/except BulkWriteError/except Exception/finally` wrapper of
`add_collection_content_vector_field`: both handlers log and swallow the
exception, and the `finally` block runs `cursor.close()` on every path. -/
def tryExceptFinallyClose :
    List (List UpdateOp) × List LogEvent × Option PyExc → BackfillResult
  | (ws, ls, none) => ⟨ws, ls, true⟩
  | (ws, ls, some .bulkWriteError) => ⟨ws, ls ++ [.bulkWriteErrorLogged], true⟩
  | (ws, ls, some .otherError) => ⟨ws, ls ++ [.unexpectedErrorLogged], true⟩

/-- `AzureOpenAIManager.add_collection_content_vector_field`, with the
cursor contents given by `docs`, the embedding service by `embed`, and
collaborator failures injected through `o`. -/
def add_collection_content_vector_field (field : String) (embed : String → List Int)
    (o : BackfillOracle) (docs : List Doc) : BackfillResult :=
  tryExceptFinallyClose (backfillLoop field embed o docs [] 0 0 0)

/-- `$set` applied to a matched document. -/
def applySet (op : UpdateOp) (d : Doc) : Doc :=
  ⟨d.id, setKey op.setK op.setV d.fields⟩

/-- Update the first document matching the `_id` filter, if any. -/
def updateFirst (op : UpdateOp) : List Doc → Option (List Doc)
  | [] => none
  | d :: ds =>
    if d.id = op.filterId then some (applySet op d :: ds)
    else (updateFirst op ds).map (d :: ·)

/-- MongoDB semantics of one `UpdateOne` with `upsert=True`: update the
first matching document; when nothing matches, insert a fresh document built
from the equality filter and the `$set` document. -/
def applyUpdateOne (store : List Doc) (op : UpdateOp) : List Doc :=
  match updateFirst op store with
  | some s => s
  | none =>
    if op.upsert then store ++ [⟨op.filterId, setKey op.setK op.setV []⟩] else store

/-- Apply a sequence of update operations to the store (the concatenation of
the bulk-write batches, in write order). -/
def applyOps (store : List Doc) (ops : List UpdateOp) : List Doc :=
  ops.foldl applyUpdateOne store

/-- What the caller of an administrative index operation observes: the
exception propagated to it (if any) and which log calls were made. -/
structure AdminResult where
  raised : Option String
  errorLogged : Bool
  infoLogged : Bool
deriving DecidableEq

/-- The store's `createIndexes` command for `VectorSearchIndex`: fails with
an AlreadyExists-class error when the index is already present, succeeds
otherwise. -/
def dbCreateIndexCommand (indexExists : Bool) : Except String Unit :=
  if indexExists then .error "IndexAlreadyExists" else .ok ()

/-- `AzureOpenAIManager.create_vector_index`: issues the command inside
`try`, logs the result on success, and on `except Exception` logs the error
and returns normally. -/
def create_vector_index (indexExists : Bool) : AdminResult :=
  match dbCreateIndexCommand indexExists with
  | .ok _ => ⟨none, false, true⟩
  | .error _ => ⟨none, true, false⟩

/-- `collection.drop_index('VectorSearchIndex')`: fails with a
NotFound-class error when the index is absent, succeeds otherwise. -/
def collDropIndex (indexExists : Bool) : Except String Unit :=
  if indexExists then .ok () else .error "IndexNotFound"

/-- `AzureOpenAIManager.delete_vector_index`: issues the drop inside `try`,
logs the result on success, and on `except Exception` logs the error and
returns normally. -/
def delete_vector_index (indexExists : Bool) : AdminResult :=
  match collDropIndex indexExists with
  | .ok _ => ⟨none, false, true⟩
  | .error _ => ⟨none, true, false⟩

/-- One record produced by the `$project` stage of `vector_search`: the
similarity score is always present (it is added by the projection itself,
so it is a structure field, not a document key), and the stored document is
carried verbatim under `document`. Scores are only logged, never computed
with, so an opaque stand-in type suffices. -/
structure SearchResult where
  similarityScore : Int
  document : List (String × Val)
deriving DecidableEq

/-- The `system_prompt` literal of `rag_with_vector_search`, byte for byte
(it is a triple-quoted Python string and starts and ends with a newline and
eight spaces of indentation). -/
def system_prompt : String :=
  "\n        You are MapleBond, A North American native life specialist, designed to assist with immigration, studying, job hunting, and housing in North America.\n            - Respond to user queries based on the provided data, focusing on practical advice for integrating into North American life.\n            - Provide answers in a clear, concise list format, with two lines of whitespace between each answer.\n            - If the query is unclear or beyond the scope of available information, respond with \"I\x27m not sure\" and suggest that the user might want to explore further on their own.\n        "

/-- The literal separator concatenated between the persona and the context. -/
def ragIntro : String := "System-generated context based on user query:\n"

/-- Python `sep.join(parts)`. -/
def joinWith (sep : String) : List String → String
  | [] => ""
  | [x] => x
  | x :: y :: xs => x ++ sep ++ joinWith sep (y :: xs)

/-- `result['document'].get(k, '')`. -/
def resGetD (r : SearchResult) (k : String) : Val :=
  (lookupKey k r.document).getD (Val.str "")

/-- The context assembly of `rag_with_vector_search`:
`"\n".join(json.dumps({"title": result['document'].get('title', ''),
"desc": result['document'].get('desc', '')}, indent=4, default=str)
for result in results)`. -/
def rag_context (results : List SearchResult) : String :=
  joinWith "\n" (results.map fun r =>
    pyJsonDumpTitleDesc (resGetD r "title") (resGetD r "desc"))

/-- Modelled from the spec (section 4.4 step 3), for comparison with
`rag_context`: the extracted (title, desc) pairs serialized as structured
text blocks "joined by a single blank line" — a blank line between two
blocks means two consecutive newlines. -/
def specContextBlankLineJoin (results : List SearchResult) : String :=
  joinWith "\n\n" (results.map fun r =>
    pyJsonDumpTitleDesc (resGetD r "title") (resGetD r "desc"))

/-- The errors `rag_with_vector_search` can raise before reaching the
completion call. -/
inductive RagErr where
  | keyError (k : String)
deriving DecidableEq

/-- The result-logging loop of `rag_with_vector_search`:
`result['document']['title']` and `result['document']['desc']` are
unguarded subscripts, so the first result whose document lacks one of the
keys raises `KeyError` (`title` is accessed first). Returns the key of the
first failing lookup, or `none` when the loop completes. -/
def firstMissingKey : List SearchResult → Option String
  | [] => none
  | r :: rs =>
    match lookupKey "title" r.document with
    | none => some "title"
    | some _ =>
      match lookupKey "desc" r.document with
      | none => some "desc"
      | some _ => firstMissingKey rs

/-- The system-role message content actually passed to the completion call:
persona, literal separator and serialized context, then the word-count-gated
character truncation followed by `strip()`. -/
def ragSystemMessage (results : List SearchResult) : String :=
  truncStep (system_prompt ++ ragIntro ++ rag_context results)

/-- A role-tagged chat message. -/
structure ChatMessage where
  role : String
  content : String
deriving DecidableEq

/-- `AzureOpenAIManager.rag_with_vector_search`, with the search results of
the incoming question and the completion service as explicit collaborators.
The logging loop runs before prompt assembly; a `KeyError` there propagates
to the caller and nothing further runs. On success the function returns the
completion output for the two-message conversation verbatim. -/
def rag_with_vector_search (complete : List ChatMessage → String)
    (results : List SearchResult) (question : String) : Except RagErr String :=
  match firstMissingKey results with
  | some k => .error (.keyError k)
  | none => .ok (complete [⟨"system", ragSystemMessage results⟩, ⟨"user", question⟩])

/-- The HTTP responses `startChat` can produce. -/
inductive HttpResp where
  | ok (body : String)
  | badRequest (error : String)
  | serverError (error : String)
deriving DecidableEq

/-- Python `str(request.data.get('input'))` for a request body whose
`input` field is the given optional string: `str` renders a missing field
(`None`) as the four-character string `"None"`. -/
def pyStrOfOpt : Option String → String
  | none => "None"
  | some s => s

/-- Python `str(e)` for the exceptions the embedded RAG call can raise
(`str(KeyError('title'))` is the repr of the key). -/
def ragErrStr : RagErr → String
  | .keyError k => "\x27" ++ k ++ "\x27"

/-- The response of one `POST /chat` call, together with whether the RAG
pipeline (and hence any collaborator network call) was invoked. -/
structure ChatCall where
  response : HttpResp
  ragCalled : Bool
deriving DecidableEq

/-- `base.views.startChat`: coerce the `input` field with `str`, return
`400 {"error": "No input provided"}` when the coerced value is empty
(`not user_input or user_input == ""`), otherwise run the RAG pipeline,
mapping an exception to a 500 response with `str(e)` and success to a 200
response with the generated text. -/
def startChat (rag : String → Except RagErr String) (input : Option String) : ChatCall :=
  let user_input := pyStrOfOpt input
  if user_input = "" then ⟨.badRequest "No input provided", false⟩
  else
    match rag user_input with
    | .error e => ⟨.serverError (ragErrStr e), true⟩
    | .ok resp => ⟨.ok resp, true⟩

/-! ### Concrete instances used by counterexamples and witnesses -/

/-- 51 cursor documents (one full batch of 50 plus one document left for the
final partial flush), with no stored fields besides `_id`. -/
def docs51 : List Doc := (List.range 51).map fun i => ⟨i, []⟩

/-- A trivial embedding collaborator for concrete runs. -/
def embed0 : String → List Int := fun _ => []

/-- The oracle of a run in which no collaborator call fails. -/
def cleanOracle : BackfillOracle := ⟨none, none⟩

/-- A small store for frame-property witnesses. -/
def storeTwo : List Doc :=
  [⟨1, [("title", Val.str "Study Permits"), ("desc", Val.str "Apply via IRCC portal")]⟩,
   ⟨2, [("title", Val.str "Work Permits")]⟩]

/-- A well-formed search result carrying `title`, `desc` and an extra field. -/
def resStudy : SearchResult :=
  ⟨1, [("title", Val.str "Study Permits"), ("desc", Val.str "Apply via IRCC portal"),
    ("contentVector", Val.vec [0])]⟩

/-- A search result whose document has extra metadata besides title/desc. -/
def resA : SearchResult :=
  ⟨2, [("title", Val.str "A"), ("desc", Val.str "B"), ("extra", Val.str "X")]⟩

/-- A search result differing from `resA` in everything but title/desc. -/
def resA' : SearchResult :=
  ⟨9, [("desc", Val.str "B"), ("title", Val.str "A"), ("zz", Val.vec [5])]⟩

/-- A plain search result. -/
def resB : SearchResult := ⟨1, [("title", Val.str "C"), ("desc", Val.str "D")]⟩

/-- A search result whose document lacks the `desc` key. -/
def resNoDesc : SearchResult := ⟨1, [("title", Val.str "t")]⟩

/-! ### Lemmas about the Python string primitives -/

theorem countWordsL_le_length (l : List Char) : ∀ b, countWordsL l b ≤ l.length := by
  induction l with
  | nil => intro b; simp [countWordsL]
  | cons c cs ih =>
    intro b
    simp only [countWordsL, List.length_cons]
    by_cases h : pyIsSpace c
    · rw [if_pos h]
      exact (ih false).trans (Nat.le_succ _)
    · rw [if_neg h]
      have := ih true
      cases b <;> simp <;> omega

theorem countWordsL_dropWhile (l : List Char) :
    countWordsL (l.dropWhile pyIsSpace) false = countWordsL l false := by
  induction l with
  | nil => rfl
  | cons c cs ih =>
    by_cases h : pyIsSpace c
    · simp [List.dropWhile_cons, h, countWordsL, ih]
    · simp [List.dropWhile_cons, h]

theorem countWordsL_all_spaces (t : List Char) (ht : ∀ c ∈ t, pyIsSpace c) :
    ∀ b, countWordsL t b = 0 := by
  induction t with
  | nil => intro b; rfl
  | cons c cs ih =>
    intro b
    have hc : pyIsSpace c = true := ht c (List.mem_cons_self c cs)
    simp only [countWordsL, hc, if_true]
    exact ih (fun x hx => ht x (List.mem_cons_of_mem c hx)) false

theorem countWordsL_append_spaces (t : List Char) (ht : ∀ c ∈ t, pyIsSpace c)
    (l : List Char) : ∀ b, countWordsL (l ++ t) b = countWordsL l b := by
  induction l with
  | nil =>
    intro b
    simpa [countWordsL] using countWordsL_all_spaces t ht b
  | cons c cs ih =>
    intro b
    by_cases h : pyIsSpace c <;> simp [countWordsL, h, ih]

theorem rdropWhile_append_rtakeWhile (p : Char → Bool) (l : List Char) :
    List.rdropWhile p l ++ List.rtakeWhile p l = l := by
  rw [List.rdropWhile, List.rtakeWhile, ← List.reverse_append,
    List.takeWhile_append_dropWhile, List.reverse_reverse]

theorem countWordsL_rdropWhile (l : List Char) :
    countWordsL (List.rdropWhile pyIsSpace l) false = countWordsL l false := by
  conv_rhs => rw [← rdropWhile_append_rtakeWhile pyIsSpace l]
  rw [countWordsL_append_spaces _ (fun c hc => List.mem_rtakeWhile_imp hc)]

theorem countWordsL_pyStripL (l : List Char) :
    countWordsL (pyStripL l) false = countWordsL l false := by
  rw [pyStripL, countWordsL_rdropWhile, countWordsL_dropWhile]

theorem dropWhile_pyStripL (l : List Char) :
    List.dropWhile pyIsSpace (pyStripL l) = pyStripL l := by
  rw [pyStripL, List.dropWhile_eq_self_iff]
  intro hl
  have hpre : List.rdropWhile pyIsSpace (List.dropWhile pyIsSpace l) <+:
      List.dropWhile pyIsSpace l := List.rdropWhile_prefix _ _
  have hlen : 0 < (List.dropWhile pyIsSpace l).length :=
    lt_of_lt_of_le hl hpre.sublist.length_le
  have hget := List.IsPrefix.getElem hpre (by simpa using hl)
  have hnot := List.dropWhile_get_zero_not pyIsSpace l hlen
  simp only [List.get_eq_getElem] at hnot ⊢
  rw [hget]
  exact hnot

theorem pyStripL_idem (l : List Char) : pyStripL (pyStripL l) = pyStripL l := by
  conv_lhs => rw [pyStripL, dropWhile_pyStripL]
  rw [pyStripL, List.rdropWhile_idempotent]

theorem truncStepL_small (m : List Char) (hm : countWordsL m false ≤ 4096) :
    truncStepL m = pyStripL m := by
  simp only [truncStepL]
  rw [if_neg (by omega)]

theorem truncStepL_idem (l : List Char) : truncStepL (truncStepL l) = truncStepL l := by
  have hwc : countWordsL (truncStepL l) false ≤ 4096 := by
    simp only [truncStepL]
    by_cases h : countWordsL l false > 4096
    · rw [if_pos h, countWordsL_pyStripL]
      have h1 := countWordsL_le_length (l.take 4096) false
      have h2 : (l.take 4096).length ≤ 4096 := by rw [List.length_take]; omega
      omega
    · rw [if_neg h, countWordsL_pyStripL]
      omega
  rw [truncStepL_small _ hwc]
  simp only [truncStepL]
  exact pyStripL_idem _

theorem strToList_append (a b : String) : (a ++ b).toList = a.toList ++ b.toList := by
  cases a; cases b; rfl

theorem strToList_mk (l : List Char) : (String.mk l).toList = l := rfl

theorem dropWhile_append_left (p : Char → Bool) (a b : List Char)
    (h : List.dropWhile p a ≠ []) :
    List.dropWhile p (a ++ b) = List.dropWhile p a ++ b := by
  rw [List.dropWhile_append]
  simp [List.isEmpty_iff, h]

theorem rdropWhile_append_left (p : Char → Bool) (a b : List Char)
    (hb : List.dropWhile p b.reverse ≠ []) :
    List.rdropWhile p (a ++ b) = a ++ List.rdropWhile p b := by
  rw [List.rdropWhile, List.reverse_append, dropWhile_append_left _ _ _ hb,
    List.reverse_append, List.reverse_reverse, List.rdropWhile]

theorem strip_pres_head (a : List Char) (c : Char) (t : List Char)
    (ha : List.dropWhile pyIsSpace a ≠ []) (hc : ¬ pyIsSpace c) :
    List.dropWhile pyIsSpace a <+: pyStripL (a ++ c :: t) := by
  rw [pyStripL, dropWhile_append_left _ _ _ ha, rdropWhile_append_left]
  · exact List.prefix_append _ _
  · rw [Ne, List.dropWhile_eq_nil_iff]
    push_neg
    exact ⟨c, by simp, by simp [hc]⟩

theorem truncStep_pres_head (a : List Char) (c : Char) (t : List Char)
    (ha : List.dropWhile pyIsSpace a ≠ []) (hc : ¬ pyIsSpace c)
    (hlen : a.length ≤ 4095) :
    List.dropWhile pyIsSpace a <+: truncStepL (a ++ c :: t) := by
  simp only [truncStepL]
  by_cases h : countWordsL (a ++ c :: t) false > 4096
  · rw [if_pos h]
    have htake : (a ++ c :: t).take 4096 = a ++ c :: t.take (4096 - a.length - 1) := by
      rw [List.take_append_eq_append_take, List.take_of_length_le (by omega)]
      congr 1
      have h2 : 4096 - a.length = (4096 - a.length - 1) + 1 := by omega
      rw [h2, List.take_succ_cons]
      have h3 : 4096 - a.length - 1 + 1 - 1 = 4096 - a.length - 1 := by omega
      rw [h3]
    rw [htake]
    exact strip_pres_head a c _ ha hc
  · rw [if_neg h]
    exact strip_pres_head a c t ha hc

set_option maxRecDepth 100000 in
set_option maxHeartbeats 2000000 in
theorem ragSystemMessage_persona (results : List SearchResult) :
    List.dropWhile pyIsSpace system_prompt.toList <+: (ragSystemMessage results).toList := by
  have hsplit : (system_prompt ++ ragIntro ++ rag_context results).toList
      = system_prompt.toList ++ 'S' ::
        ("ystem-generated context based on user query:\n".toList ++
          (rag_context results).toList) := by
    rw [strToList_append, strToList_append, List.append_assoc]
    congr 1
  have hmsg : (ragSystemMessage results).toList
      = truncStepL ((system_prompt ++ ragIntro ++ rag_context results).toList) := by
    simp only [ragSystemMessage, truncStep, strToList_mk]
  rw [hmsg, hsplit]
  exact truncStep_pres_head _ _ _ (by decide) (by decide) (by decide)

theorem firstMissingKey_eq_none (results : List SearchResult)
    (h : ∀ r ∈ results,
      lookupKey "title" r.document ≠ none ∧ lookupKey "desc" r.document ≠ none) :
    firstMissingKey results = none := by
  induction results with
  | nil => rfl
  | cons r rs ih =>
    obtain ⟨ht, hd⟩ := h r (by simp)
    obtain ⟨tv, htv⟩ := Option.ne_none_iff_exists'.mp ht
    obtain ⟨dv, hdv⟩ := Option.ne_none_iff_exists'.mp hd
    simp only [firstMissingKey, htv, hdv]
    exact ih fun x hx => h x (by simp [hx])

theorem firstMissingKey_mem (results : List SearchResult)
    (h : ∃ r ∈ results,
      lookupKey "title" r.document = none ∨ lookupKey "desc" r.document = none) :
    ∃ k, (k = "title" ∨ k = "desc") ∧ firstMissingKey results = some k := by
  induction results with
  | nil => simp at h
  | cons r rs ih =>
    cases htv : lookupKey "title" r.document with
    | none =>
      refine ⟨"title", Or.inl rfl, ?_⟩
      simp [firstMissingKey, htv]
    | some tv =>
      cases hdv : lookupKey "desc" r.document with
      | none =>
        refine ⟨"desc", Or.inr rfl, ?_⟩
        simp [firstMissingKey, htv, hdv]
      | some dv =>
        have hred : firstMissingKey (r :: rs) = firstMissingKey rs := by
          simp [firstMissingKey, htv, hdv]
        rw [hred]
        apply ih
        obtain ⟨r', hr', hmiss⟩ := h
        rcases List.mem_cons.mp hr' with rfl | hmem
        · rcases hmiss with h1 | h1
          · rw [htv] at h1; cases h1
          · rw [hdv] at h1; cases h1
        · exact ⟨r', hmem, hmiss⟩

theorem strAppend_assoc (a b c : String) : a ++ b ++ c = a ++ (b ++ c) :=
  String.append_assoc a b c

theorem strAppend_empty (a : String) : a ++ "" = a :=
  String.append_empty a

/-! ### Claims C1, C3, C4, C5, C6, C10 -/

/-- C1 (code bug): `startChat` coerces the request field with `str` before
the emptiness check, so a missing `input` becomes the non-empty string
"None": the request proceeds into the RAG pipeline (collaborator calls are
made) and returns its result, instead of the claimed 400 "No input provided"
response with zero collaborator calls. The empty-string case does behave as
claimed. This theorem evaluates the embedded view at both inputs. -/
theorem c1_missing_input_not_rejected :
    startChat (fun _ => .ok "answer") none = ⟨.ok "answer", true⟩ ∧
    startChat (fun _ => .ok "answer") (some "") = ⟨.badRequest "No input provided", false⟩ :=
  ⟨rfl, rfl⟩

/-- C3 counterexample: in both wrong-state cases (create when the index
exists, drop when it is absent) the wrapper returns normally — no error
reaches the caller — contradicting the claim that an AlreadyExists- or
NotFound-class error is surfaced. -/
theorem c3_counterexample :
    (create_vector_index true).raised = none ∧ (delete_vector_index false).raised = none :=
  ⟨rfl, rfl⟩

/-- C3 (amended): in both wrong-state cases the underlying store operation
does fail with the AlreadyExists- or NotFound-class error, but
`create_vector_index` and `delete_vector_index` catch the exception in
their `except Exception` handlers, log it, and return normally: the error
is swallowed, not surfaced to the caller. -/
theorem c3_admin_errors_swallowed :
    dbCreateIndexCommand true = Except.error "IndexAlreadyExists" ∧
    collDropIndex false = Except.error "IndexNotFound" ∧
    create_vector_index true = ⟨none, true, false⟩ ∧
    delete_vector_index false = ⟨none, true, false⟩ :=
  ⟨rfl, rfl, rfl, rfl⟩

/-- C4 counterexample: with two concrete results, the context the code
builds differs from the spec's description (blocks joined by a single blank
line): the code joins the blocks with a single newline character. -/
theorem c4_counterexample :
    rag_context [resA, resB] ≠ specContextBlankLineJoin [resA, resB] := by decide

/-- C4 (amended): the context is built from each result's `title` and
`desc` only (every other document field and the similarity score is
discarded — the context depends only on the (title, desc) projections),
blocks keep result order, and consecutive blocks are joined by a single
newline character, not by a blank line. -/
theorem c4_context_structure :
    (rag_context [] = "") ∧
    (∀ r rs, rag_context (r :: rs) =
      pyJsonDumpTitleDesc (resGetD r "title") (resGetD r "desc") ++
        (if rs = [] then "" else "\n" ++ rag_context rs)) ∧
    (∀ rs1 rs2 : List SearchResult,
      rs1.map (fun r => (resGetD r "title", resGetD r "desc")) =
        rs2.map (fun r => (resGetD r "title", resGetD r "desc")) →
      rag_context rs1 = rag_context rs2) := by
  refine ⟨rfl, ?_, ?_⟩
  · intro r rs
    cases rs with
    | nil => simp [rag_context, joinWith, strAppend_empty]
    | cons y ys =>
      simp only [rag_context, List.map_cons, joinWith,
        if_neg (List.cons_ne_nil y ys)]
      rw [strAppend_assoc]
  · intro rs1 rs2 h
    have h2 : rs1.map (fun r => pyJsonDumpTitleDesc (resGetD r "title") (resGetD r "desc"))
        = rs2.map (fun r => pyJsonDumpTitleDesc (resGetD r "title") (resGetD r "desc")) := by
      have h1 := congrArg (List.map fun p : Val × Val => pyJsonDumpTitleDesc p.1 p.2) h
      simpa [List.map_map, Function.comp] using h1
    simp only [rag_context, h2]

theorem c4_witness :
    rag_context [resA] = rag_context [resA'] ∧
    rag_context (resA :: [resB]) =
      pyJsonDumpTitleDesc (resGetD resA "title") (resGetD resA "desc") ++
        (if ([resB] : List SearchResult) = [] then "" else "\n" ++ rag_context [resB]) :=
  ⟨c4_context_structure.2.2 [resA] [resA'] (by decide),
   c4_context_structure.2.1 resA [resB]⟩

/-- C5: confirmed. The truncation step of RAG answer generation — if the
whitespace-delimited word count exceeds 4096, cut to the first 4096
characters, then strip leading/trailing whitespace — is idempotent: applied
to a string that is already its own output, it returns that string
unchanged. -/
theorem c5_truncation_idempotent (s : String) : truncStep (truncStep s) = truncStep s :=
  congrArg String.mk (truncStepL_idem s.toList)

set_option maxRecDepth 100000 in
set_option maxHeartbeats 2000000 in
/-- C6 counterexample: at a concrete well-formed one-document result and
question, the system message does not have the fixed persona text (the
`system_prompt` literal) as a prefix: the final `strip()` removes the
persona's leading newline and indentation from the assembled message. -/
theorem c6_counterexample :
    ¬ system_prompt.toList <+: (ragSystemMessage [resStudy]).toList := by decide

/-- C6 (amended): for every non-empty question, non-empty result list whose
documents all carry `title` and `desc` (the spec's well-formed documents),
and completion service returning non-empty text, `rag_with_vector_search`
returns the completion output verbatim (hence non-empty), and the
system-role message passed to the completion call has the persona text
stripped of its leading whitespace as a prefix — the assembled message is
`strip()`ped, so the persona's leading newline and indentation are removed
from the front of the message. -/
theorem c6_rag_persona_and_nonempty (complete : List ChatMessage → String)
    (results : List SearchResult) (question : String)
    (hq : question ≠ "") (hres : results ≠ [])
    (hkeys : ∀ r ∈ results,
      lookupKey "title" r.document ≠ none ∧ lookupKey "desc" r.document ≠ none)
    (hcomp : ∀ msgs, complete msgs ≠ "") :
    rag_with_vector_search complete results question =
      .ok (complete [⟨"system", ragSystemMessage results⟩, ⟨"user", question⟩]) ∧
    complete [⟨"system", ragSystemMessage results⟩, ⟨"user", question⟩] ≠ "" ∧
    List.dropWhile pyIsSpace system_prompt.toList <+: (ragSystemMessage results).toList := by
  refine ⟨?_, hcomp _, ragSystemMessage_persona results⟩
  simp [rag_with_vector_search, firstMissingKey_eq_none results hkeys]

set_option maxRecDepth 100000 in
set_option maxHeartbeats 2000000 in
theorem c6_witness :
    rag_with_vector_search (fun _ => "ans") [resStudy] "How do I apply for a study permit?" =
      .ok ((fun _ => "ans" : List ChatMessage → String)
        [⟨"system", ragSystemMessage [resStudy]⟩,
         ⟨"user", "How do I apply for a study permit?"⟩]) ∧
    (fun _ => "ans" : List ChatMessage → String)
      [⟨"system", ragSystemMessage [resStudy]⟩,
       ⟨"user", "How do I apply for a study permit?"⟩] ≠ "" ∧
    List.dropWhile pyIsSpace system_prompt.toList <+: (ragSystemMessage [resStudy]).toList :=
  c6_rag_persona_and_nonempty (fun _ => "ans") [resStudy]
    "How do I apply for a study permit?" (by decide) (by decide) (by decide)
    (fun msgs => (by decide : ("ans" : String) ≠ ""))

/-- C10: confirmed. If some retrieved result's document lacks the `title`
or the `desc` key, `rag_with_vector_search` raises a key-lookup error in
its result-logging loop (for the first such result, `title` being checked
first) and never reaches prompt assembly or the completion call, even
though the later context-extraction step uses defaulting lookups
(`.get(key, '')`) that would tolerate the missing fields. -/
theorem c10_missing_key_raises (complete : List ChatMessage → String)
    (results : List SearchResult) (question : String)
    (h : ∃ r ∈ results,
      lookupKey "title" r.document = none ∨ lookupKey "desc" r.document = none) :
    ∃ k, (k = "title" ∨ k = "desc") ∧
      rag_with_vector_search complete results question = .error (.keyError k) := by
  obtain ⟨k, hk, hfm⟩ := firstMissingKey_mem results h
  exact ⟨k, hk, by simp [rag_with_vector_search, hfm]⟩

theorem c10_witness :
    ∃ k, (k = "title" ∨ k = "desc") ∧
      rag_with_vector_search (fun _ => "ans") [resNoDesc] "q" = .error (.keyError k) :=
  c10_missing_key_raises (fun _ => "ans") [resNoDesc] "q"
    ⟨resNoDesc, by simp, Or.inr (by decide)⟩

/-! ### Backfill: batching, failure handling, cursor release -/

theorem mem_dropLast_cons {α : Type} (x : α) (l : List α) (b : α)
    (hb : b ∈ (x :: l).dropLast) : b = x ∨ b ∈ l.dropLast := by
  cases l with
  | nil => simp at hb
  | cons y ys =>
    rw [List.dropLast_cons₂] at hb
    rcases List.mem_cons.mp hb with h | h
    · exact Or.inl h
    · exact Or.inr h

theorem backfillLoop_clean (field : String) (embed : String → List Int) :
    ∀ (docs : List Doc) (pending : List UpdateOp) (count didx widx : Nat),
      pending.length < 50 →
      ∃ ws ls,
        backfillLoop field embed cleanOracle docs pending count didx widx = (ws, ls, none) ∧
        ws.join = pending ++ docs.map (mkOp field embed) ∧
        (∀ b ∈ ws, b ≠ [] ∧ b.length ≤ 50) ∧
        (∀ b ∈ ws.dropLast, b.length = 50) := by
  intro docs
  induction docs with
  | nil =>
    intro pending count didx widx hp
    by_cases h : pending = []
    · subst h
      exact ⟨[], [], by simp [backfillLoop], by simp, by simp, by simp⟩
    · refine ⟨[pending], [.finalCompleted count], ?_, by simp, ?_, by simp⟩
      · simp [backfillLoop, cleanOracle, h]
      · intro b hb
        rw [List.mem_singleton] at hb
        subst hb
        exact ⟨h, by omega⟩
  | cons d ds ih =>
    intro pending count didx widx hp
    by_cases hfull : (pending ++ [mkOp field embed d]).length ≥ 50
    · obtain ⟨ws', ls', heq, hjoin, hmem, hdrop⟩ := ih [] (count + 1) (didx + 1) (widx + 1) (by simp)
      have hlen : (pending ++ [mkOp field embed d]).length = 50 := by
        rw [List.length_append] at hfull ⊢
        simp at hfull ⊢
        omega
      refine ⟨(pending ++ [mkOp field embed d]) :: ws',
        .bulkCompleted (count + 1) :: ls', ?_, ?_, ?_, ?_⟩
      · simp only [backfillLoop]
        rw [if_neg (by simp [cleanOracle]), if_pos hfull, if_neg (by simp [cleanOracle]), heq]
      · simp [hjoin]
      · intro b hb
        rcases List.mem_cons.mp hb with rfl | hb'
        · exact ⟨by simp, by omega⟩
        · exact hmem b hb'
      · intro b hb
        rcases mem_dropLast_cons _ _ _ hb with rfl | hb'
        · exact hlen
        · exact hdrop b hb'
    · obtain ⟨ws', ls', heq, hjoin, hmem, hdrop⟩ :=
        ih (pending ++ [mkOp field embed d]) (count + 1) (didx + 1) widx (by omega)
      refine ⟨ws', ls', ?_, ?_, hmem, hdrop⟩
      · simp only [backfillLoop]
        rw [if_neg (by simp [cleanOracle]), if_neg hfull, heq]
      · simp [hjoin]

/-- C7: confirmed. In a run of the embedding backfill in which no
collaborator call fails, upsert operations are accumulated into batches,
every flushed bulk write is non-empty and holds at most 50 operations,
every flushed batch except possibly the last holds exactly 50 (full
batches are flushed as they fill; the remaining partial batch is flushed
after the cursor is exhausted), and the concatentation of the flushed
batches, in order, is exactly one update per cursor document in cursor
order — every visited document has its update written. -/
theorem c7_backfill_batching (field : String) (embed : String → List Int) (docs : List Doc) :
    (add_collection_content_vector_field field embed cleanOracle docs).writes.join
      = docs.map (mkOp field embed) ∧
    (∀ b ∈ (add_collection_content_vector_field field embed cleanOracle docs).writes,
      b ≠ [] ∧ b.length ≤ 50) ∧
    (∀ b ∈ (add_collection_content_vector_field field embed cleanOracle docs).writes.dropLast,
      b.length = 50) := by
  obtain ⟨ws, ls, heq, hjoin, hmem, hdrop⟩ :=
    backfillLoop_clean field embed docs [] 0 0 0 (by simp)
  have hres : add_collection_content_vector_field field embed cleanOracle docs
      = ⟨ws, ls, true⟩ := by
    rw [add_collection_content_vector_field, heq]
    rfl
  rw [hres]
  exact ⟨by simpa using hjoin, hmem, hdrop⟩

theorem c7_witness :
    (add_collection_content_vector_field "f" embed0 cleanOracle docs51).writes.join
      = docs51.map (mkOp "f" embed0) ∧
    (∀ b ∈ (add_collection_content_vector_field "f" embed0 cleanOracle docs51).writes,
      b ≠ [] ∧ b.length ≤ 50) ∧
    (∀ b ∈ (add_collection_content_vector_field "f" embed0 cleanOracle docs51).writes.dropLast,
      b.length = 50) :=
  c7_backfill_batching "f" embed0 docs51

theorem tryExceptFinallyClose_closed
    (x : List (List UpdateOp) × List LogEvent × Option PyExc) :
    (tryExceptFinallyClose x).cursorClosed = true := by
  obtain ⟨ws, ls, e⟩ := x
  cases e with
  | none => rfl
  | some exc => cases exc <;> rfl

/-- C9: confirmed. On every exit path of the embedding backfill — normal
completion, an injected `BulkWriteError` on any bulk write, or an injected
unexpected error on any embedding call — the `finally` block runs and the
server-side cursor is closed before the operation returns. -/
theorem c9_cursor_always_closed (field : String) (embed : String → List Int)
    (o : BackfillOracle) (docs : List Doc) :
    (add_collection_content_vector_field field embed o docs).cursorClosed = true :=
  tryExceptFinallyClose_closed _

theorem backfillLoop_nil_empty (field : String) (embed : String → List Int)
    (o : BackfillOracle) (count didx widx : Nat) :
    backfillLoop field embed o [] [] count didx widx = ([], [], none) := by
  simp [backfillLoop]

theorem backfillLoop_nil_flush (field : String) (embed : String → List Int)
    (o : BackfillOracle) (pending : List UpdateOp) (count didx widx : Nat)
    (hp : pending ≠ []) (hfail : o.bulkFailAt ≠ some widx) :
    backfillLoop field embed o [] pending count didx widx
      = ([pending], [.finalCompleted count], none) := by
  simp only [backfillLoop]
  rw [if_neg hp, if_neg hfail]

theorem backfillLoop_nil_fail (field : String) (embed : String → List Int)
    (o : BackfillOracle) (pending : List UpdateOp) (count didx widx : Nat)
    (hp : pending ≠ []) (hfail : o.bulkFailAt = some widx) :
    backfillLoop field embed o [] pending count didx widx
      = ([], [], some .bulkWriteError) := by
  simp only [backfillLoop]
  rw [if_neg hp, if_pos hfail]

theorem backfillLoop_cons_flush (field : String) (embed : String → List Int)
    (o : BackfillOracle) (d : Doc) (ds : List Doc) (pending : List UpdateOp)
    (count didx widx : Nat)
    (hexc : o.excAt ≠ some didx)
    (hfull : (pending ++ [mkOp field embed d]).length ≥ 50)
    (hfail : o.bulkFailAt ≠ some widx) :
    backfillLoop field embed o (d :: ds) pending count didx widx
      = ((pending ++ [mkOp field embed d]) ::
          (backfillLoop field embed o ds [] (count + 1) (didx + 1) (widx + 1)).1,
         .bulkCompleted (count + 1) ::
          (backfillLoop field embed o ds [] (count + 1) (didx + 1) (widx + 1)).2.1,
         (backfillLoop field embed o ds [] (count + 1) (didx + 1) (widx + 1)).2.2) := by
  simp only [backfillLoop]
  rw [if_neg hexc, if_pos hfull, if_neg hfail]

theorem backfillLoop_cons_flush_fail (field : String) (embed : String → List Int)
    (o : BackfillOracle) (d : Doc) (ds : List Doc) (pending : List UpdateOp)
    (count didx widx : Nat)
    (hexc : o.excAt ≠ some didx)
    (hfull : (pending ++ [mkOp field embed d]).length ≥ 50)
    (hfail : o.bulkFailAt = some widx) :
    backfillLoop field embed o (d :: ds) pending count didx widx
      = ([], [], some .bulkWriteError) := by
  simp only [backfillLoop]
  rw [if_neg hexc, if_pos hfull, if_pos hfail]

theorem backfillLoop_cons_noflush (field : String) (embed : String → List Int)
    (o : BackfillOracle) (d : Doc) (ds : List Doc) (pending : List UpdateOp)
    (count didx widx : Nat)
    (hexc : o.excAt ≠ some didx)
    (hnfull : ¬ (pending ++ [mkOp field embed d]).length ≥ 50) :
    backfillLoop field embed o (d :: ds) pending count didx widx
      = backfillLoop field embed o ds (pending ++ [mkOp field embed d])
          (count + 1) (didx + 1) widx := by
  simp only [backfillLoop]
  rw [if_neg hexc, if_neg hnfull]

theorem backfillLoop_failAt (field : String) (embed : String → List Int) (i : Nat) :
    ∀ (docs : List Doc) (pending : List UpdateOp) (count didx widx : Nat),
      widx ≤ i →
      (backfillLoop field embed ⟨some i, none⟩ docs pending count didx widx).1
        = (backfillLoop field embed cleanOracle docs pending count didx widx).1.take (i - widx) ∧
      ((backfillLoop field embed ⟨some i, none⟩ docs pending count didx widx).2.2
          = some PyExc.bulkWriteError ↔
        i - widx < (backfillLoop field embed cleanOracle docs pending count didx widx).1.length) := by
  intro docs
  induction docs with
  | nil =>
    intro pending count didx widx hwi
    by_cases hp : pending = []
    · subst hp
      rw [backfillLoop_nil_empty, backfillLoop_nil_empty]
      simp
    · by_cases hiw : i = widx
      · subst hiw
        rw [backfillLoop_nil_fail field embed _ pending count didx i hp rfl,
          backfillLoop_nil_flush field embed cleanOracle pending count didx i hp (by simp [cleanOracle])]
        simp
      · rw [backfillLoop_nil_flush field embed _ pending count didx widx hp (by simp [hiw]),
          backfillLoop_nil_flush field embed cleanOracle pending count didx widx hp (by simp [cleanOracle])]
        constructor
        · rw [List.take_of_length_le (by simp; omega)]
        · simp
          omega
  | cons d ds ih =>
    intro pending count didx widx hwi
    by_cases hfull : (pending ++ [mkOp field embed d]).length ≥ 50
    · by_cases hiw : i = widx
      · subst hiw
        rw [backfillLoop_cons_flush_fail field embed _ d ds pending count didx i
            (by simp) hfull rfl,
          backfillLoop_cons_flush field embed cleanOracle d ds pending count didx i
            (by simp [cleanOracle]) hfull (by simp [cleanOracle])]
        simp
      · obtain ⟨ih1, ih2⟩ := ih [] (count + 1) (didx + 1) (widx + 1) (by omega)
        rw [backfillLoop_cons_flush field embed _ d ds pending count didx widx
            (by simp) hfull (by simp [hiw]),
          backfillLoop_cons_flush field embed cleanOracle d ds pending count didx widx
            (by simp [cleanOracle]) hfull (by simp [cleanOracle])]
        constructor
        · dsimp only
          have hsub : i - widx = (i - (widx + 1)) + 1 := by omega
          rw [hsub, List.take_succ_cons, ih1]
        · dsimp only
          simp only [List.length_cons]
          rw [ih2]
          omega
    · rw [backfillLoop_cons_noflush field embed _ d ds pending count didx widx (by simp) hfull,
        backfillLoop_cons_noflush field embed cleanOracle d ds pending count didx widx
          (by simp [cleanOracle]) hfull]
      exact ih _ _ _ _ hwi

theorem tryExceptFinallyClose_of_bulkErr
    (x : List (List UpdateOp) × List LogEvent × Option PyExc)
    (hx : x.2.2 = some .bulkWriteError) :
    tryExceptFinallyClose x = ⟨x.1, x.2.1 ++ [.bulkWriteErrorLogged], true⟩ := by
  obtain ⟨w1, l1, e1⟩ := x
  dsimp at hx
  subst hx
  rfl

/-- C2 counterexample: a concrete run over 51 documents in which the first
bulk write (the full batch of 50) raises `BulkWriteError`: the failure is
logged, but no later batch is processed or flushed — the run performs zero
successful writes, while the same run without the failure flushes two
batches (the second one containing the 51st document). The `except
BulkWriteError` handler sits outside the `for` loop, so the exception
aborts the remaining cursor iteration, contradicting the claim that the
iteration continues. -/
theorem c2_counterexample :
    (add_collection_content_vector_field "f" embed0 ⟨some 0, none⟩ docs51).writes = [] ∧
    LogEvent.bulkWriteErrorLogged ∈
      (add_collection_content_vector_field "f" embed0 ⟨some 0, none⟩ docs51).logs ∧
    (add_collection_content_vector_field "f" embed0 cleanOracle docs51).writes.length = 2 := by
  refine ⟨by decide, by decide, by decide⟩

/-- C2 (amended): if writing the `i`-th bulk batch fails with
`BulkWriteError`, the failure is logged (with the per-document detail
`bwe.details`), but the remaining cursor iteration is aborted rather than
continued: the run's successful writes are exactly the batches before the
failing one, no later batch is flushed, and the cursor is still closed. -/
theorem c2_batch_failure_aborts (field : String) (embed : String → List Int)
    (docs : List Doc) (i : Nat)
    (h : i < (add_collection_content_vector_field field embed cleanOracle docs).writes.length) :
    (add_collection_content_vector_field field embed ⟨some i, none⟩ docs).writes
      = (add_collection_content_vector_field field embed cleanOracle docs).writes.take i ∧
    LogEvent.bulkWriteErrorLogged ∈
      (add_collection_content_vector_field field embed ⟨some i, none⟩ docs).logs ∧
    (add_collection_content_vector_field field embed ⟨some i, none⟩ docs).cursorClosed = true := by
  obtain ⟨hw, hiff⟩ := backfillLoop_failAt field embed i docs [] 0 0 0 (Nat.zero_le i)
  obtain ⟨ws, ls, heq, hjoin, hmem, hdrop⟩ :=
    backfillLoop_clean field embed docs [] 0 0 0 (by simp)
  have hclean : add_collection_content_vector_field field embed cleanOracle docs
      = ⟨ws, ls, true⟩ := by
    rw [add_collection_content_vector_field, heq]
    rfl
  rw [hclean] at h ⊢
  rw [heq] at hw hiff
  dsimp only at h hw hiff
  have hex : (backfillLoop field embed ⟨some i, none⟩ docs [] 0 0 0).2.2
      = some .bulkWriteError := by
    rw [hiff]
    simpa using h
  rw [add_collection_content_vector_field, tryExceptFinallyClose_of_bulkErr _ hex]
  refine ⟨?_, by simp, rfl⟩
  dsimp only
  rw [hw]
  simp

theorem c2_witness :
    (add_collection_content_vector_field "f" embed0 ⟨some 0, none⟩ docs51).writes
      = (add_collection_content_vector_field "f" embed0 cleanOracle docs51).writes.take 0 ∧
    LogEvent.bulkWriteErrorLogged ∈
      (add_collection_content_vector_field "f" embed0 ⟨some 0, none⟩ docs51).logs ∧
    (add_collection_content_vector_field "f" embed0 ⟨some 0, none⟩ docs51).cursorClosed = true :=
  c2_batch_failure_aborts "f" embed0 docs51 0 (by decide)

/-! ### Frame property of the backfill writes (C8) -/

theorem lookupKey_setKey_ne (k k0 : String) (v : Val) (f : List (String × Val))
    (h : k ≠ k0) : lookupKey k (setKey k0 v f) = lookupKey k f := by
  induction f with
  | nil =>
    simp only [setKey, lookupKey]
    rw [if_neg (fun hh => h hh.symm)]
  | cons p rest ih =>
    obtain ⟨k', v'⟩ := p
    simp only [setKey]
    by_cases hk0 : k' = k0
    · rw [if_pos hk0]
      simp only [lookupKey]
      rw [if_neg (fun hh => h hh.symm), if_neg (fun hh => h (hk0 ▸ hh).symm)]
    · rw [if_neg hk0]
      simp only [lookupKey]
      by_cases hk : k' = k
      · rw [if_pos hk, if_pos hk]
      · rw [if_neg hk, if_neg hk]
        exact ih

/-- The frame relation between a document before and after the backfill
writes touch the store: the identifier is unchanged and every field other
than `contentVector` is unchanged. -/
def frameR (d d' : Doc) : Prop :=
  d'.id = d.id ∧
  ∀ k, k ≠ "contentVector" → lookupKey k d'.fields = lookupKey k d.fields

theorem frameR_refl (d : Doc) : frameR d d := ⟨rfl, fun _ _ => rfl⟩

theorem frameR_trans {a b c : Doc} (h1 : frameR a b) (h2 : frameR b c) : frameR a c :=
  ⟨h2.1.trans h1.1, fun k hk => (h2.2 k hk).trans (h1.2 k hk)⟩

theorem forall₂_frameR_refl (l : List Doc) : List.Forall₂ frameR l l := by
  induction l with
  | nil => exact List.Forall₂.nil
  | cons d ds ih => exact List.Forall₂.cons (frameR_refl d) ih

theorem forall₂_frameR_trans :
    ∀ {a b c : List Doc}, List.Forall₂ frameR a b → List.Forall₂ frameR b c →
      List.Forall₂ frameR a c := by
  intro a b c h1
  induction h1 generalizing c with
  | nil =>
    intro h2
    cases h2
    exact List.Forall₂.nil
  | cons hr hrest ih =>
    intro h2
    cases h2 with
    | cons hr2 hrest2 => exact List.Forall₂.cons (frameR_trans hr hr2) (ih hrest2)

theorem forall₂_frameR_ids {a b : List Doc} (h : List.Forall₂ frameR a b) :
    b.map Doc.id = a.map Doc.id := by
  induction h with
  | nil => rfl
  | cons hr hrest ih => simp [hr.1, ih]

theorem updateFirst_frame (op : UpdateOp) (hset : op.setK = "contentVector") :
    ∀ store : List Doc, op.filterId ∈ store.map Doc.id →
      ∃ s, updateFirst op store = some s ∧ List.Forall₂ frameR store s := by
  intro store
  induction store with
  | nil => intro h; simp at h
  | cons d ds ih =>
    intro hmem
    by_cases hd : d.id = op.filterId
    · refine ⟨applySet op d :: ds, by simp [updateFirst, hd], ?_⟩
      refine List.Forall₂.cons ⟨rfl, ?_⟩ (forall₂_frameR_refl ds)
      intro k hk
      show lookupKey k (setKey op.setK op.setV d.fields) = lookupKey k d.fields
      exact lookupKey_setKey_ne k op.setK op.setV d.fields (hset ▸ hk)
    · have hmem' : op.filterId ∈ ds.map Doc.id := by
        rcases List.mem_cons.mp hmem with h1 | h1
        · exact absurd h1.symm hd
        · exact h1
      obtain ⟨s, hs, hf⟩ := ih hmem'
      exact ⟨d :: s, by simp [updateFirst, hd, hs], List.Forall₂.cons (frameR_refl d) hf⟩

theorem applyUpdateOne_frame (op : UpdateOp) (hset : op.setK = "contentVector")
    (store : List Doc) (hmem : op.filterId ∈ store.map Doc.id) :
    List.Forall₂ frameR store (applyUpdateOne store op) := by
  obtain ⟨s, hs, hf⟩ := updateFirst_frame op hset store hmem
  simp only [applyUpdateOne, hs]
  exact hf

theorem applyOps_frame :
    ∀ (ops : List UpdateOp) (store : List Doc),
      (∀ op ∈ ops, op.setK = "contentVector" ∧ op.filterId ∈ store.map Doc.id) →
      List.Forall₂ frameR store (applyOps store ops) := by
  intro ops
  induction ops with
  | nil => intro store _; exact forall₂_frameR_refl store
  | cons op rest ih =>
    intro store h
    obtain ⟨hset, hmem⟩ := h op (by simp)
    have h1 : List.Forall₂ frameR store (applyUpdateOne store op) :=
      applyUpdateOne_frame op hset store hmem
    have hids := forall₂_frameR_ids h1
    have h2 := ih (applyUpdateOne store op) fun op' hop' => by
      obtain ⟨hs, hm⟩ := h op' (by simp [hop'])
      exact ⟨hs, by rw [hids]; exact hm⟩
    have hstep : applyOps store (op :: rest) = applyOps (applyUpdateOne store op) rest := rfl
    rw [hstep]
    exact forall₂_frameR_trans h1 h2

/-- C8: confirmed. Applying to the store (in write order) every update the
backfill flushes leaves the store's length and identifier sequence
unchanged — no document is created or deleted — and for every document,
every field other than `contentVector` is unchanged. -/
theorem c8_backfill_frame (field : String) (embed : String → List Int) (store : List Doc) :
    (applyOps store
        (add_collection_content_vector_field field embed cleanOracle store).writes.join).length
      = store.length ∧
    (applyOps store
        (add_collection_content_vector_field field embed cleanOracle store).writes.join).map Doc.id
      = store.map Doc.id ∧
    List.Forall₂ frameR store
      (applyOps store
        (add_collection_content_vector_field field embed cleanOracle store).writes.join) := by
  obtain ⟨ws, ls, heq, hjoin, hmem, hdrop⟩ :=
    backfillLoop_clean field embed store [] 0 0 0 (by simp)
  have hclean : add_collection_content_vector_field field embed cleanOracle store
      = ⟨ws, ls, true⟩ := by
    rw [add_collection_content_vector_field, heq]
    rfl
  rw [hclean]
  dsimp only
  rw [show ws.join = store.map (mkOp field embed) from by simpa using hjoin]
  have hf := applyOps_frame (store.map (mkOp field embed)) store fun op hop => by
    obtain ⟨d, hd, hde⟩ := List.mem_map.mp hop
    subst hde
    exact ⟨rfl, List.mem_map.mpr ⟨d, hd, rfl⟩⟩
  exact ⟨(List.Forall₂.length_eq hf).symm, forall₂_frameR_ids hf, hf⟩

theorem c8_witness :
    (applyOps storeTwo
        (add_collection_content_vector_field "title" embed0 cleanOracle storeTwo).writes.join).length
      = storeTwo.length ∧
    (applyOps storeTwo
        (add_collection_content_vector_field "title" embed0 cleanOracle storeTwo).writes.join).map Doc.id
      = storeTwo.map Doc.id ∧
    List.Forall₂ frameR storeTwo
      (applyOps storeTwo
        (add_collection_content_vector_field "title" embed0 cleanOracle storeTwo).writes.join) :=
  c8_backfill_frame "title" embed0 storeTwo
